import Mathlib

/-!
Shallow embedding of the jet merchant-API client library
(src/client.rs, src/error.rs, src/utils.rs, src/products.rs).

The HTTP transport (`reqwest`) is modelled as an oracle
`send : HttpRequest → HttpOutcome`; body deserialization (`Response::json`)
is modelled as an explicit decoder argument.  Every operation returns, next
to its result and the updated client state, the list of HTTP requests it
performed, in order, so that "performs no token exchange" and "performs
exactly one token-exchange call" are statable.
Timestamps are modelled as integers counting seconds, so
`Duration::minutes(15)` is the constant `900`.
-/

namespace Jet

/-- `const ENDPOINT: &'static str = "https://merchant-api.jet.com/api"` -/
def ENDPOINT : String := "https://merchant-api.jet.com/api"

/-- `Duration::minutes(15)` in seconds: the refresh skew of `with_token`. -/
def refreshSkew : Int := 900

/-- `struct Token { id_token, token_type, expires_on }` (client.rs).
`expires_on` is a `DateTime<Utc>`, modelled in seconds. -/
structure Token where
  id_token : String
  token_type : String
  expires_on : Int
deriving DecidableEq, Repr

/-- `struct ClientOptions { api_user, secret, merchant_id }` (client.rs). -/
structure ClientOptions where
  api_user : String
  secret : String
  merchant_id : String
deriving DecidableEq, Repr

/-- `reqwest::Error`, restricted to the two kinds that arise in this client:
a transport failure from `send()`, or a body-decode failure from `json()`. -/
inductive ReqwestError where
  | transport (msg : String)
  | decode (msg : String)
deriving DecidableEq, Repr

/-- `enum Error` (error.rs).  `Json` wraps a `serde_json::Error` message,
`Http` wraps a `reqwest::Error`, `Io` wraps an `std::io::Error` message. -/
inductive Error where
  | GetTokenRequest (status : Nat) (body : String)
  | Request (path : String) (status : Nat) (body : String)
  | InvalidBearerToken
  | Json (msg : String)
  | Http (e : ReqwestError)
  | Io (msg : String)
deriving DecidableEq, Repr

/-- An HTTP request as assembled by a `reqwest::blocking::RequestBuilder`:
method, absolute url, headers, optional body text. -/
structure HttpRequest where
  method : String
  url : String
  headers : List (String × String)
  body : Option String
deriving DecidableEq, Repr

/-- An HTTP response: status code and full body text (reading the body to a
string is taken to be infallible at this level of modelling). -/
structure HttpResponse where
  status : Nat
  body : String
deriving DecidableEq, Repr

/-- Outcome of `RequestBuilder::send()`: a `reqwest::Error` or a response. -/
inductive HttpOutcome where
  | err (e : ReqwestError)
  | ok (r : HttpResponse)
deriving DecidableEq, Repr

/-- `StatusCode::is_success()`: `200 ≤ code < 300`. -/
def statusIsSuccess (s : Nat) : Bool :=
  decide (200 ≤ s) && decide (s < 300)

/-- One hexadecimal digit, lowercase, as emitted by serde_json's
`\u00XX` escapes. -/
def hexDigit (n : Nat) : Char :=
  if n < 10 then Char.ofNat (48 + n) else Char.ofNat (87 + n)

/-- serde_json's escaping of a single character inside a JSON string:
quote and backslash are escaped, control characters use the short escapes
`\b \t \n \f \r` or a `\u00XX` escape, everything else is kept as is. -/
def escapeJsonChar (c : Char) : String :=
  if c = '"' then "\\\""
  else if c = '\\' then "\\\\"
  else if c = Char.ofNat 8 then "\\b"
  else if c = '\t' then "\\t"
  else if c = '\n' then "\\n"
  else if c = Char.ofNat 12 then "\\f"
  else if c = Char.ofNat 13 then "\\r"
  else if c.toNat < 32 then
    "\\u00" ++ String.mk [hexDigit (c.toNat / 16), hexDigit (c.toNat % 16)]
  else String.mk [c]

/-- serde_json's serialization of a string value, quotes included. -/
def escapeJsonString (s : String) : String :=
  "\"" ++ String.join (s.toList.map escapeJsonChar) ++ "\""

/-- serde_json's serialization of `TokenRequest { user, pass }`
(the body `get_token` posts). -/
def tokenRequestJson (user pw : String) : String :=
  "\x7b\"user\":" ++ escapeJsonString user ++ ",\"pass\":" ++ escapeJsonString pw ++ "\x7d"

/-- The HTTP request `Client::get_token` builds:
`POST {ENDPOINT}/token` with the `{ user, pass }` JSON body. -/
def tokenExchangeRequest (opts : ClientOptions) : HttpRequest :=
  { method := "POST"
    url := ENDPOINT ++ "/token"
    headers := []
    body := some (tokenRequestJson opts.api_user opts.secret) }

/-- `Client::get_token` (client.rs): post the token request; a transport
error surfaces as `Error::Http`; a non-success status returns
`Error::GetTokenRequest { status, body }`; otherwise the body is decoded as a
`Token` by `res.json()`, whose failure also surfaces via the
`From<reqwest::Error>` conversion as `Error::Http` with a decode-kind error.
`parseToken` models `Response::json::<Token>()`'s body decoding.
Returns the result and the HTTP requests performed. -/
def get_token (opts : ClientOptions) (send : HttpRequest → HttpOutcome)
    (parseToken : String → Except String Token) :
    Except Error Token × List HttpRequest :=
  match send (tokenExchangeRequest opts) with
  | .err e => (.error (.Http e), [tokenExchangeRequest opts])
  | .ok res =>
    if ¬ statusIsSuccess res.status then
      (.error (.GetTokenRequest res.status res.body), [tokenExchangeRequest opts])
    else
      match parseToken res.body with
      | .error m => (.error (.Http (.decode m)), [tokenExchangeRequest opts])
      | .ok t => (.ok t, [tokenExchangeRequest opts])

/-- The client's state: the construction-time options and the credential
slot, i.e. the contents of `token: Mutex<RefCell<Option<Token>>>`. -/
structure Client where
  options : ClientOptions
  token : Option Token
deriving DecidableEq, Repr

/-- The `_` arm of `with_token`'s match: `token.replace(self.get_token()?)`
followed by `f(&token.as_ref().unwrap())`.  On a `get_token` failure the `?`
propagates before `replace`, so the slot is left untouched. -/
def refresh_then_use (st : Client) (send : HttpRequest → HttpOutcome)
    (parseToken : String → Except String Token)
    (f : Token → Except Error α) :
    Except Error α × Client × List HttpRequest :=
  match get_token st.options send parseToken with
  | (.error e, reqs) => (.error e, st, reqs)
  | (.ok t, reqs) => (f t, { st with token := some t }, reqs)

/-- `Client::with_token` (client.rs): under the credential lock, if a token
is cached and `token.expires_on - Duration::minutes(15) >= Utc::now()` holds,
call `f` on the cached token; otherwise fetch a fresh token, store it, and
call `f` on it.  `now` is the value of `Utc::now()` at the guard. -/
def with_token (now : Int) (st : Client) (send : HttpRequest → HttpOutcome)
    (parseToken : String → Except String Token)
    (f : Token → Except Error α) :
    Except Error α × Client × List HttpRequest :=
  match st.token with
  | some t =>
    if t.expires_on - refreshSkew ≥ now then (f t, st, [])
    else refresh_then_use st send parseToken f
  | none => refresh_then_use st send parseToken f

/-- `headers::Authorization::bearer(&token)`: builds the header value
`"Bearer " ++ token`; fails (`Error::InvalidBearerToken` at the call site)
when the value contains a character not allowed in an HTTP header value
(below 0x20 other than TAB, or DEL). -/
def bearerHeaderValue (tok : String) : Option String :=
  if ("Bearer " ++ tok).data.all
      (fun c => c == '\t' || (decide (32 ≤ c.toNat) && decide (c.toNat ≠ 127)))
  then some ("Bearer " ++ tok) else none

/-- The closure `Client::request` passes to `with_token`: build a request for
`method` on `ENDPOINT ++ path` and insert the bearer authorization header,
failing with `Error::InvalidBearerToken` when the token cannot be encoded. -/
def authedRequest (method path : String) (t : Token) : Except Error HttpRequest :=
  match bearerHeaderValue t.id_token with
  | none => .error .InvalidBearerToken
  | some v =>
    .ok { method := method
          url := ENDPOINT ++ path
          headers := [("authorization", v)]
          body := none }

/-- `Client::request` (client.rs): obtain a credential via `with_token` and
build the authorized request inside its closure, then apply the caller's
builder `f`, send, and interpret the response: a non-success status returns
`Error::Request { path, status, body }`; on success the body is decoded as
`T` by `res.json()`, whose failure surfaces as `Error::Http` (decode kind).
`parse` models `Response::json::<T>()`. -/
def request (now : Int) (st : Client) (send : HttpRequest → HttpOutcome)
    (parseToken : String → Except String Token)
    (parse : String → Except String α)
    (method path : String) (f : HttpRequest → HttpRequest) :
    Except Error α × Client × List HttpRequest :=
  match with_token now st send parseToken (authedRequest method path) with
  | (.error e, st', reqs) => (.error e, st', reqs)
  | (.ok req0, st', reqs) =>
    match send (f req0) with
    | .err e => (.error (.Http e), st', reqs ++ [f req0])
    | .ok res =>
      if ¬ statusIsSuccess res.status then
        (.error (.Request path res.status res.body), st', reqs ++ [f req0])
      else
        match parse res.body with
        | .error m => (.error (.Http (.decode m)), st', reqs ++ [f req0])
        | .ok v => (.ok v, st', reqs ++ [f req0])

/-- `Client::request_no_content` (client.rs): textually the same pipeline as
`request` except that a success-status response is not parsed and the call
returns unit. -/
def request_no_content (now : Int) (st : Client) (send : HttpRequest → HttpOutcome)
    (parseToken : String → Except String Token)
    (method path : String) (f : HttpRequest → HttpRequest) :
    Except Error Unit × Client × List HttpRequest :=
  match with_token now st send parseToken (authedRequest method path) with
  | (.error e, st', reqs) => (.error e, st', reqs)
  | (.ok req0, st', reqs) =>
    match send (f req0) with
    | .err e => (.error (.Http e), st', reqs ++ [f req0])
    | .ok res =>
      if ¬ statusIsSuccess res.status then
        (.error (.Request path res.status res.body), st', reqs ++ [f req0])
      else
        (.ok (), st', reqs ++ [f req0])

/-- `struct Price { price: f32 }` (products.rs); the numeric field is
modelled as a rational. -/
structure Price where
  price : Rat
deriving DecidableEq, Repr

/-- The path `Client::get_price` requests, as written in the source:
`format!("/merchant-skus/{}/inventory", sku_id)`. -/
def get_price_path (sku_id : String) : String :=
  "/merchant-skus/" ++ sku_id ++ "/inventory"

/-- The path `Client::update_price` requests, as written in the source:
`format!("/merchant-skus/{}/price", sku_id)`. -/
def update_price_path (sku_id : String) : String :=
  "/merchant-skus/" ++ sku_id ++ "/price"

/-- `Client::get_price` (products.rs): a GET through `Client::request`
decoded as `Price`, with a no-op builder closure. -/
def get_price (now : Int) (st : Client) (send : HttpRequest → HttpOutcome)
    (parseToken : String → Except String Token)
    (parse : String → Except String Price) (sku_id : String) :
    Except Error Price × Client × List HttpRequest :=
  request now st send parseToken parse "GET" (get_price_path sku_id) (fun r => r)

/-- chrono `DateTime<Utc>` modelled by its calendar fields; `nano` is the
sub-second part, present in the value but ignored by second-resolution
formatting directives. -/
structure DateTimeUtc where
  year : Nat
  month : Nat
  day : Nat
  hour : Nat
  minute : Nat
  second : Nat
  nano : Nat
deriving DecidableEq, Repr

/-- chrono's `%m %d %H %M %S`: zero-padded to two digits. -/
def pad2 (n : Nat) : String :=
  if n < 10 then "0" ++ toString n else toString n

/-- chrono's `%Y`: the year zero-padded to four digits (years above 9999
carry an explicit sign in chrono; irrelevant to the in-range claims). -/
def fmtYear (y : Nat) : String :=
  if y < 10 then "000" ++ toString y
  else if y < 100 then "00" ++ toString y
  else if y < 1000 then "0" ++ toString y
  else if y ≤ 9999 then toString y
  else "+" ++ toString y

/-- `serialize_datetime` (utils.rs): format the value with
`"%Y-%m-%dT%H:%M:%S.0000000-00:00"` — the sub-second digits and the offset
are fixed literal text, not derived from the value. -/
def serialize_datetime (d : DateTimeUtc) : String :=
  fmtYear d.year ++ "-" ++ pad2 d.month ++ "-" ++ pad2 d.day ++ "T" ++
  pad2 d.hour ++ ":" ++ pad2 d.minute ++ ":" ++ pad2 d.second ++ ".0000000-00:00"

/-! Concrete fixtures used by witnesses and counterexamples. -/

def demoOptions : ClientOptions :=
  { api_user := "api-user-1", secret := "api-secret-1", merchant_id := "merchant-1" }

/-- A cached credential whose expiry is exactly `now + 15 min` when the
clock reads 0. -/
def boundaryToken : Token :=
  { id_token := "cached-token", token_type := "bearer", expires_on := 900 }

def boundaryClient : Client := { options := demoOptions, token := some boundaryToken }

/-- A credential comfortably inside its validity window at clock 0. -/
def validToken : Token :=
  { id_token := "valid-token", token_type := "bearer", expires_on := 5000 }

def validClient : Client := { options := demoOptions, token := some validToken }

def emptyClient : Client := { options := demoOptions, token := none }

def freshToken : Token :=
  { id_token := "fresh-token", token_type := "bearer", expires_on := 100000 }

/-- A transport that answers every request with status 200 and a fixed body. -/
def sendOk200 : HttpRequest → HttpOutcome :=
  fun _ => .ok { status := 200, body := "token-response-body" }

/-- A transport that answers every request with status 404. -/
def send404 : HttpRequest → HttpOutcome :=
  fun _ => .ok { status := 404, body := "not found" }

/-- A transport that fails every request with a connection error. -/
def sendDown : HttpRequest → HttpOutcome :=
  fun _ => .err (.transport "connection refused")

/-- A decoder that reads every body as `freshToken`. -/
def parseFresh : String → Except String Token := fun _ => .ok freshToken

/-- A decoder that reads every body as a fixed `Price`. -/
def parsePriceDemo : String → Except String Price := fun _ => .ok { price := 1 }

/-! Helper lemmas about the cache pipeline, shared by the claim theorems. -/

theorem get_token_trace (opts : ClientOptions) (send : HttpRequest → HttpOutcome)
    (pt : String → Except String Token) :
    (get_token opts send pt).2 = [tokenExchangeRequest opts] := by
  unfold get_token
  split
  · rfl
  · split
    · rfl
    · split <;> rfl

theorem get_token_send_err {opts : ClientOptions} {send : HttpRequest → HttpOutcome}
    {pt : String → Except String Token} {e : ReqwestError}
    (hsend : send (tokenExchangeRequest opts) = .err e) :
    get_token opts send pt = (.error (.Http e), [tokenExchangeRequest opts]) := by
  unfold get_token
  rw [hsend]

theorem get_token_bad_status {opts : ClientOptions} {send : HttpRequest → HttpOutcome}
    {pt : String → Except String Token} {res : HttpResponse}
    (hsend : send (tokenExchangeRequest opts) = .ok res)
    (hst : statusIsSuccess res.status = false) :
    get_token opts send pt =
      (.error (.GetTokenRequest res.status res.body), [tokenExchangeRequest opts]) := by
  unfold get_token
  simp only [hsend, hst]
  rfl

theorem get_token_decode_err {opts : ClientOptions} {send : HttpRequest → HttpOutcome}
    {pt : String → Except String Token} {res : HttpResponse} {m : String}
    (hsend : send (tokenExchangeRequest opts) = .ok res)
    (hst : statusIsSuccess res.status = true)
    (hp : pt res.body = .error m) :
    get_token opts send pt =
      (.error (.Http (.decode m)), [tokenExchangeRequest opts]) := by
  unfold get_token
  simp only [hsend, hst, hp]
  rfl

theorem get_token_ok {opts : ClientOptions} {send : HttpRequest → HttpOutcome}
    {pt : String → Except String Token} {res : HttpResponse} {t : Token}
    (hsend : send (tokenExchangeRequest opts) = .ok res)
    (hst : statusIsSuccess res.status = true)
    (hp : pt res.body = .ok t) :
    get_token opts send pt = (.ok t, [tokenExchangeRequest opts]) := by
  unfold get_token
  simp only [hsend, hst, hp]
  rfl

theorem refresh_then_use_trace {α} (st : Client) (send : HttpRequest → HttpOutcome)
    (pt : String → Except String Token) (g : Token → Except Error α) :
    (refresh_then_use st send pt g).2.2 = [tokenExchangeRequest st.options] := by
  unfold refresh_then_use
  rcases hg : get_token st.options send pt with ⟨r, reqs⟩
  have htr : reqs = [tokenExchangeRequest st.options] := by
    have := get_token_trace st.options send pt
    rw [hg] at this
    exact this
  subst htr
  cases r <;> rfl

theorem refresh_then_use_options {α} (st : Client) (send : HttpRequest → HttpOutcome)
    (pt : String → Except String Token) (g : Token → Except Error α) :
    ((refresh_then_use st send pt g).2.1).options = st.options := by
  unfold refresh_then_use
  rcases get_token st.options send pt with ⟨r, reqs⟩
  cases r <;> rfl

theorem with_token_run (now : Int) (st : Client) (send : HttpRequest → HttpOutcome)
    (pt : String → Except String Token) {α} (g : Token → Except Error α) :
    with_token now st send pt g =
      match with_token now st send pt (fun tk => Except.ok tk) with
      | (.error e, st', reqs) => (.error e, st', reqs)
      | (.ok t, st', reqs) => (g t, st', reqs) := by
  unfold with_token refresh_then_use
  cases st.token with
  | none =>
    rcases get_token st.options send pt with ⟨r, reqs⟩
    cases r <;> rfl
  | some t =>
    by_cases hv : t.expires_on - refreshSkew ≥ now
    · simp only [if_pos hv]
    · simp only [if_neg hv]
      rcases get_token st.options send pt with ⟨r, reqs⟩
      cases r <;> rfl

theorem with_token_observer {now : Int} {st : Client} {send : HttpRequest → HttpOutcome}
    {pt : String → Except String Token} {t : Token} {st' : Client} {reqs : List HttpRequest}
    (h : with_token now st send pt (fun tk => Except.ok tk) = (Except.ok t, st', reqs))
    {α} (g : Token → Except Error α) :
    with_token now st send pt g = (g t, st', reqs) := by
  rw [with_token_run now st send pt g, h]

theorem with_token_valid {now : Int} {st : Client} {t : Token}
    (send : HttpRequest → HttpOutcome) (pt : String → Except String Token)
    (hsome : st.token = some t) (hv : t.expires_on - refreshSkew ≥ now)
    {α} (g : Token → Except Error α) :
    with_token now st send pt g = (g t, st, []) := by
  unfold with_token
  rw [hsome]
  simp only [if_pos hv]

theorem with_token_trigger {now : Int} {st : Client}
    (send : HttpRequest → HttpOutcome) (pt : String → Except String Token)
    (htrig : st.token = none ∨ ∃ t, st.token = some t ∧ t.expires_on - refreshSkew < now)
    {α} (g : Token → Except Error α) :
    with_token now st send pt g = refresh_then_use st send pt g := by
  unfold with_token
  rcases htrig with h | ⟨t, h, hlt⟩
  · rw [h]
  · rw [h]
    simp only [if_neg (by omega : ¬ t.expires_on - refreshSkew ≥ now)]

theorem refresh_then_use_ok {st : Client} {send : HttpRequest → HttpOutcome}
    {pt : String → Except String Token} {res : HttpResponse} {t : Token}
    (hsend : send (tokenExchangeRequest st.options) = .ok res)
    (hst : statusIsSuccess res.status = true)
    (hp : pt res.body = .ok t)
    {α} (g : Token → Except Error α) :
    refresh_then_use st send pt g =
      (g t, { st with token := some t }, [tokenExchangeRequest st.options]) := by
  unfold refresh_then_use
  rw [get_token_ok hsend hst hp]

theorem refresh_then_use_send_err {st : Client} {send : HttpRequest → HttpOutcome}
    {pt : String → Except String Token} {e : ReqwestError}
    (hsend : send (tokenExchangeRequest st.options) = .err e)
    {α} (g : Token → Except Error α) :
    refresh_then_use st send pt g =
      (.error (.Http e), st, [tokenExchangeRequest st.options]) := by
  unfold refresh_then_use
  rw [get_token_send_err hsend]

theorem refresh_then_use_bad_status {st : Client} {send : HttpRequest → HttpOutcome}
    {pt : String → Except String Token} {res : HttpResponse}
    (hsend : send (tokenExchangeRequest st.options) = .ok res)
    (hst : statusIsSuccess res.status = false)
    {α} (g : Token → Except Error α) :
    refresh_then_use st send pt g =
      (.error (.GetTokenRequest res.status res.body), st, [tokenExchangeRequest st.options]) := by
  unfold refresh_then_use
  rw [get_token_bad_status hsend hst]

theorem refresh_then_use_decode_err {st : Client} {send : HttpRequest → HttpOutcome}
    {pt : String → Except String Token} {res : HttpResponse} {m : String}
    (hsend : send (tokenExchangeRequest st.options) = .ok res)
    (hst : statusIsSuccess res.status = true)
    (hp : pt res.body = .error m)
    {α} (g : Token → Except Error α) :
    refresh_then_use st send pt g =
      (.error (.Http (.decode m)), st, [tokenExchangeRequest st.options]) := by
  unfold refresh_then_use
  rw [get_token_decode_err hsend hst hp]

theorem refresh_then_use_error {st : Client} {send : HttpRequest → HttpOutcome}
    {pt : String → Except String Token} {e : Error}
    (hfail : (get_token st.options send pt).1 = .error e)
    {α} (g : Token → Except Error α) :
    refresh_then_use st send pt g = (.error e, st, (get_token st.options send pt).2) := by
  unfold refresh_then_use
  rcases hg : get_token st.options send pt with ⟨r, reqs⟩
  rw [hg] at hfail
  simp only at hfail
  subst hfail
  rfl

theorem with_token_options {α} (now : Int) (st : Client) (send : HttpRequest → HttpOutcome)
    (pt : String → Except String Token) (g : Token → Except Error α) :
    ((with_token now st send pt g).2.1).options = st.options := by
  unfold with_token
  cases st.token with
  | none => exact refresh_then_use_options st send pt g
  | some t =>
    by_cases hv : t.expires_on - refreshSkew ≥ now
    · simp only [if_pos hv]
    · simp only [if_neg hv]
      exact refresh_then_use_options st send pt g

theorem request_with_token_err {now : Int} {st : Client} {send : HttpRequest → HttpOutcome}
    {pt : String → Except String Token} {method path : String} {e : Error}
    {st' : Client} {reqs : List HttpRequest} {α} (parse : String → Except String α)
    (f : HttpRequest → HttpRequest)
    (hwt : with_token now st send pt (authedRequest method path) = (.error e, st', reqs)) :
    request now st send pt parse method path f = (.error e, st', reqs) := by
  unfold request
  rw [hwt]

theorem request_ok_sent {now : Int} {st : Client} {send : HttpRequest → HttpOutcome}
    {pt : String → Except String Token} {method path : String} {req0 : HttpRequest}
    {st' : Client} {reqs : List HttpRequest} {α} (parse : String → Except String α)
    (f : HttpRequest → HttpRequest)
    (hwt : with_token now st send pt (authedRequest method path) = (.ok req0, st', reqs)) :
    request now st send pt parse method path f =
      match send (f req0) with
      | .err e => (.error (.Http e), st', reqs ++ [f req0])
      | .ok res =>
        if ¬ statusIsSuccess res.status then
          (.error (.Request path res.status res.body), st', reqs ++ [f req0])
        else
          match parse res.body with
          | .error m => (.error (.Http (.decode m)), st', reqs ++ [f req0])
          | .ok v => (.ok v, st', reqs ++ [f req0]) := by
  unfold request
  rw [hwt]

theorem request_no_content_with_token_err {now : Int} {st : Client}
    {send : HttpRequest → HttpOutcome} {pt : String → Except String Token}
    {method path : String} {e : Error} {st' : Client} {reqs : List HttpRequest}
    (f : HttpRequest → HttpRequest)
    (hwt : with_token now st send pt (authedRequest method path) = (.error e, st', reqs)) :
    request_no_content now st send pt method path f = (.error e, st', reqs) := by
  unfold request_no_content
  rw [hwt]

theorem request_no_content_ok_sent {now : Int} {st : Client}
    {send : HttpRequest → HttpOutcome} {pt : String → Except String Token}
    {method path : String} {req0 : HttpRequest} {st' : Client} {reqs : List HttpRequest}
    (f : HttpRequest → HttpRequest)
    (hwt : with_token now st send pt (authedRequest method path) = (.ok req0, st', reqs)) :
    request_no_content now st send pt method path f =
      match send (f req0) with
      | .err e => (.error (.Http e), st', reqs ++ [f req0])
      | .ok res =>
        if ¬ statusIsSuccess res.status then
          (.error (.Request path res.status res.body), st', reqs ++ [f req0])
        else
          (.ok (), st', reqs ++ [f req0]) := by
  unfold request_no_content
  rw [hwt]

theorem request_options {α} (now : Int) (st : Client) (send : HttpRequest → HttpOutcome)
    (pt : String → Except String Token) (parse : String → Except String α)
    (method path : String) (f : HttpRequest → HttpRequest) :
    ((request now st send pt parse method path f).2.1).options = st.options := by
  have h := with_token_options now st send pt (authedRequest method path)
  rcases hw : with_token now st send pt (authedRequest method path) with ⟨r, st', reqs⟩
  rw [hw] at h
  cases r with
  | error e =>
    rw [request_with_token_err parse f hw]
    exact h
  | ok req0 =>
    rw [request_ok_sent parse f hw]
    split
    · exact h
    · split
      · exact h
      · split <;> exact h

theorem request_no_content_as_request (now : Int) (st : Client)
    (send : HttpRequest → HttpOutcome) (pt : String → Except String Token)
    (method path : String) (f : HttpRequest → HttpRequest) :
    request_no_content now st send pt method path f =
      request now st send pt (fun _ => Except.ok ()) method path f := by
  rcases hw : with_token now st send pt (authedRequest method path) with ⟨r, st', reqs⟩
  cases r with
  | error e =>
    rw [request_with_token_err (fun _ => Except.ok ()) f hw,
        request_no_content_with_token_err f hw]
  | ok req0 =>
    rw [request_ok_sent (fun _ => Except.ok ()) f hw, request_no_content_ok_sent f hw]

/-! Claim theorems. -/

/-- C1 (amended): `with_token` invokes its closure with the already-cached
credential, leaves the cache unchanged and performs no token-exchange
request if and only if a credential is cached and
`expires_on − 15 min ≥ now` (the boundary is inclusive, as the source's
`>=` makes it); and in that window a second back-to-back call observes the
same cached token. -/
theorem with_token_cached_reuse_iff (now : Int) (st : Client)
    (send : HttpRequest → HttpOutcome) (pt : String → Except String Token) (t : Token) :
    (st.token = some t ∧ t.expires_on - refreshSkew ≥ now →
      (∀ (α : Type) (g : Token → Except Error α),
        with_token now st send pt g = (g t, st, []))
      ∧ (with_token now (with_token now st send pt (fun tk => Except.ok tk)).2.1 send pt
          (fun tk => Except.ok tk)).1 = Except.ok t)
    ∧ (with_token now st send pt (fun tk => Except.ok tk) = (Except.ok t, st, []) →
        st.token = some t ∧ t.expires_on - refreshSkew ≥ now) := by
  constructor
  · rintro ⟨hsome, hv⟩
    refine ⟨fun α g => with_token_valid send pt hsome hv g, ?_⟩
    rw [with_token_valid send pt hsome hv]
    show (with_token now st send pt (fun tk => Except.ok tk)).1 = Except.ok t
    rw [with_token_valid send pt hsome hv]
  · intro h
    cases hst : st.token with
    | none =>
      rw [with_token_trigger send pt (Or.inl hst)] at h
      have htr := refresh_then_use_trace st send pt (fun tk => Except.ok tk)
      rw [h] at htr
      simp at htr
    | some t0 =>
      by_cases hv : t0.expires_on - refreshSkew ≥ now
      · rw [with_token_valid send pt hst hv] at h
        have ht : t0 = t := by
          have h1 := congrArg (fun p => p.1) h
          simpa using h1
        subst ht
        exact ⟨rfl, hv⟩
      · rw [with_token_trigger send pt
          (Or.inr ⟨t0, hst, by omega⟩)] at h
        have htr := refresh_then_use_trace st send pt (fun tk => Except.ok tk)
        rw [h] at htr
        simp at htr

/-- C1 witness: at clock 0 the cached `validToken` (expiry 5000) is reused:
the call returns it, leaves the cache unchanged and sends no request, even
though the transport is down. -/
theorem with_token_cached_reuse_iff_witness :
    with_token 0 validClient sendDown parseFresh (fun tk => Except.ok tk)
      = (Except.ok validToken, validClient, []) :=
  ((with_token_cached_reuse_iff 0 validClient sendDown parseFresh validToken).1
    ⟨rfl, by decide⟩).1 Token (fun tk => Except.ok tk)

/-- C1 counterexample: with `now = 0` and a cached credential expiring at
`now + 15 min` exactly, the claim's strict condition `now < expiry − 15 min`
is false, yet the code invokes the closure with the cached credential and
performs no token exchange (none could have succeeded: the transport is
down), refuting the claimed "only if" direction. -/
theorem with_token_boundary_reuse_counterexample :
    ¬ ((0 : Int) < boundaryToken.expires_on - refreshSkew)
    ∧ with_token 0 boundaryClient sendDown parseFresh (fun tk => Except.ok tk)
        = (Except.ok boundaryToken, boundaryClient, []) :=
  ⟨by decide, rfl⟩

/-- C2 (amended): whenever the cached credential is absent or
`expires_on − 15 min < now` (strictly — at the exact boundary the cache is
reused instead), `with_token` performs exactly one token-exchange request
(a POST to `{ENDPOINT}/token` whose body is the `{user, pass}` JSON built
from principal and secret); on a success answer it replaces the cached slot
wholesale with the decoded credential and invokes the closure with it. -/
theorem with_token_refresh_success (now : Int) (st : Client)
    (send : HttpRequest → HttpOutcome) (pt : String → Except String Token)
    (res : HttpResponse) (t : Token)
    (htrig : st.token = none ∨ ∃ t0, st.token = some t0 ∧ t0.expires_on - refreshSkew < now)
    (hsend : send (tokenExchangeRequest st.options) = .ok res)
    (hst : statusIsSuccess res.status = true)
    (hp : pt res.body = .ok t) :
    (tokenExchangeRequest st.options).method = "POST"
    ∧ (tokenExchangeRequest st.options).url = ENDPOINT ++ "/token"
    ∧ (tokenExchangeRequest st.options).body
        = some (tokenRequestJson st.options.api_user st.options.secret)
    ∧ ∀ (α : Type) (g : Token → Except Error α),
        with_token now st send pt g
          = (g t, { st with token := some t }, [tokenExchangeRequest st.options]) := by
  refine ⟨rfl, rfl, rfl, fun α g => ?_⟩
  rw [with_token_trigger send pt htrig, refresh_then_use_ok hsend hst hp]

/-- C2 witness: starting from an empty cache at clock 0, with a transport
answering 200 and a decoder yielding `freshToken`, `with_token` performs
the one exchange, stores `freshToken` and hands it to the closure. -/
theorem with_token_refresh_success_witness :
    with_token 0 emptyClient sendOk200 parseFresh (fun tk => Except.ok tk)
      = (Except.ok freshToken, { emptyClient with token := some freshToken },
         [tokenExchangeRequest demoOptions]) :=
  (with_token_refresh_success 0 emptyClient sendOk200 parseFresh
      { status := 200, body := "token-response-body" } freshToken
      (Or.inl rfl) rfl rfl rfl).2.2.2 Token (fun tk => Except.ok tk)

/-- C2 counterexample: with `now = 0` and the cached credential expiring at
`now + 15 min` exactly — an expiry within the 15-minute skew — the claim
demands exactly one token exchange before the closure runs, but the code
performs none: it reuses the cached credential and leaves the slot
untouched, although the transport stood ready to answer an exchange. -/
theorem with_token_boundary_no_refresh_counterexample :
    boundaryToken.expires_on - 0 ≤ refreshSkew
    ∧ with_token 0 boundaryClient sendOk200 parseFresh (fun tk => Except.ok tk)
        = (Except.ok boundaryToken, boundaryClient, []) :=
  ⟨by decide, rfl⟩

/-- C3: for every domain call whose credential step produced an authorized
request, and every HTTP response to the sent request: a status in
[200,300) has the body parsed as the caller's type, with a decode failure
returned as the typed error wrapping the decoder's diagnostic; any other
status returns `Error.Request` carrying exactly the request path, the
status code and the raw body text. -/
theorem request_status_branching (now : Int) (st : Client)
    (send : HttpRequest → HttpOutcome) (pt : String → Except String Token)
    (α : Type) (parse : String → Except String α) (method path : String)
    (f : HttpRequest → HttpRequest) (req0 : HttpRequest) (st' : Client)
    (reqs : List HttpRequest) (res : HttpResponse)
    (hwt : with_token now st send pt (authedRequest method path) = (.ok req0, st', reqs))
    (hsend : send (f req0) = .ok res) :
    (statusIsSuccess res.status = false →
      request now st send pt parse method path f
        = (.error (.Request path res.status res.body), st', reqs ++ [f req0]))
    ∧ (statusIsSuccess res.status = true →
        (∀ v, parse res.body = .ok v →
          request now st send pt parse method path f
            = (.ok v, st', reqs ++ [f req0]))
        ∧ (∀ m, parse res.body = .error m →
          request now st send pt parse method path f
            = (.error (.Http (.decode m)), st', reqs ++ [f req0]))) := by
  rw [request_ok_sent parse f hwt, hsend]
  refine ⟨fun hs => ?_, fun hs => ⟨fun v hv => ?_, fun m hm => ?_⟩⟩
  · simp only [hs]
    rfl
  · simp only [hs, hv]
    rfl
  · simp only [hs, hm]
    rfl

/-- C3 witness: with a valid cached credential, a 404 answer to
`GET /orders/created` yields `Error.Request` with that path, status 404 and
the raw body, and the one sent request carries the bearer header. -/
theorem request_status_branching_witness :
    request 0 validClient send404 parseFresh (fun _ => Except.ok (0 : Nat))
        "GET" "/orders/created" (fun r => r)
      = (Except.error (Error.Request "/orders/created" 404 "not found"), validClient,
         [{ method := "GET", url := ENDPOINT ++ "/orders/created",
            headers := [("authorization", "Bearer valid-token")], body := none }]) :=
  (request_status_branching 0 validClient send404 parseFresh Nat
      (fun _ => Except.ok (0 : Nat)) "GET" "/orders/created" (fun r => r)
      { method := "GET", url := ENDPOINT ++ "/orders/created",
        headers := [("authorization", "Bearer valid-token")], body := none }
      validClient [] { status := 404, body := "not found" } rfl rfl).1 rfl

/-- C4: when a refresh is required, each failing token-exchange outcome is
returned as its typed error — transport failure as `Error.Http` with the
transport error unchanged, a non-2xx status as `Error.GetTokenRequest`
carrying status and raw body, a body that fails to decode as a credential
as the typed error wrapping the decoder's diagnostic — with the cache slot
unchanged and the guarded closure never consulted (the outcome is the same
for every closure). -/
theorem with_token_exchange_failures (now : Int) (st : Client)
    (send : HttpRequest → HttpOutcome) (pt : String → Except String Token)
    (htrig : st.token = none ∨ ∃ t0, st.token = some t0 ∧ t0.expires_on - refreshSkew < now) :
    (∀ m, send (tokenExchangeRequest st.options) = .err (.transport m) →
      ∀ (α : Type) (g : Token → Except Error α),
        with_token now st send pt g
          = (.error (.Http (.transport m)), st, [tokenExchangeRequest st.options]))
    ∧ (∀ res, send (tokenExchangeRequest st.options) = .ok res →
        statusIsSuccess res.status = false →
        ∀ (α : Type) (g : Token → Except Error α),
          with_token now st send pt g
            = (.error (.GetTokenRequest res.status res.body), st,
               [tokenExchangeRequest st.options]))
    ∧ (∀ res m, send (tokenExchangeRequest st.options) = .ok res →
        statusIsSuccess res.status = true → pt res.body = .error m →
        ∀ (α : Type) (g : Token → Except Error α),
          with_token now st send pt g
            = (.error (.Http (.decode m)), st, [tokenExchangeRequest st.options])) := by
  refine ⟨fun m hsend α g => ?_, fun res hsend hs α g => ?_,
    fun res m hsend hs hp α g => ?_⟩
  · rw [with_token_trigger send pt htrig, refresh_then_use_send_err hsend]
  · rw [with_token_trigger send pt htrig, refresh_then_use_bad_status hsend hs]
  · rw [with_token_trigger send pt htrig, refresh_then_use_decode_err hsend hs hp]

/-- C4 witness: with an empty cache and the transport down, `with_token`
returns the transport error unchanged inside the typed enum, leaves the
cache empty, and the closure's value never surfaces. -/
theorem with_token_exchange_failures_witness :
    with_token 0 emptyClient sendDown parseFresh (fun tk => Except.ok tk)
      = (Except.error (Error.Http (ReqwestError.transport "connection refused")),
         emptyClient, [tokenExchangeRequest demoOptions]) :=
  (with_token_exchange_failures 0 emptyClient sendDown parseFresh (Or.inl rfl)).1
    "connection refused" rfl Token (fun tk => Except.ok tk)

/-- C10: if a refresh is required and the token exchange fails with any
typed error, `with_token` returns that error and the cached slot is left
exactly as it was — the stale or absent credential is neither replaced nor
cleared. -/
theorem with_token_failed_refresh_preserves_slot (now : Int) (st : Client)
    (send : HttpRequest → HttpOutcome) (pt : String → Except String Token) (e : Error)
    (htrig : st.token = none ∨ ∃ t0, st.token = some t0 ∧ t0.expires_on - refreshSkew < now)
    (hfail : (get_token st.options send pt).1 = .error e) :
    ∀ (α : Type) (g : Token → Except Error α),
      with_token now st send pt g = (.error e, st, (get_token st.options send pt).2) := by
  intro α g
  rw [with_token_trigger send pt htrig, refresh_then_use_error hfail]

/-- C10 witness: a stale credential (expiry 900, clock 1000) stays in the
slot when the exchange answers 404: the call returns the get-token error
and the client still holds the old token. -/
theorem with_token_failed_refresh_preserves_slot_witness :
    with_token 1000 boundaryClient send404 parseFresh (fun tk => Except.ok tk)
      = (Except.error (Error.GetTokenRequest 404 "not found"), boundaryClient,
         [tokenExchangeRequest demoOptions]) :=
  with_token_failed_refresh_preserves_slot 1000 boundaryClient send404 parseFresh
    (Error.GetTokenRequest 404 "not found")
    (Or.inr ⟨boundaryToken, rfl, by decide⟩) rfl Token (fun tk => Except.ok tk)

/-- C5: `serialize_datetime` emits the fixed textual pattern — the output
never depends on the value's sub-second component, it always ends in the
literal ".0000000-00:00", and the example instant 2021-03-05T10:15:30 UTC
serializes to exactly "2021-03-05T10:15:30.0000000-00:00" whatever its
nanosecond field holds. -/
theorem serialize_datetime_fixed_format :
    (∀ (d : DateTimeUtc) (n : Nat),
        serialize_datetime { d with nano := n } = serialize_datetime d)
    ∧ (∀ d : DateTimeUtc, ∃ p, serialize_datetime d = p ++ ".0000000-00:00")
    ∧ serialize_datetime
        { year := 2021, month := 3, day := 5, hour := 10, minute := 15,
          second := 30, nano := 123456789 }
        = "2021-03-05T10:15:30.0000000-00:00" := by
  refine ⟨fun d n => rfl, fun d => ⟨_, rfl⟩, ?_⟩
  rfl

/-- C6 (code bug): `get_price` decodes the body as `{ price }` but requests
the inventory path: for sku "sku1" the one request it sends is a GET on
`{ENDPOINT}/merchant-skus/sku1/inventory`, not the
`/merchant-skus/sku1/price` path the claim states (and which the sibling
`update_price` uses). -/
theorem get_price_requests_inventory_path :
    (get_price 0 validClient sendOk200 parseFresh parsePriceDemo "sku1").2.2
      = [{ method := "GET",
           url := "https://merchant-api.jet.com/api/merchant-skus/sku1/inventory",
           headers := [("authorization", "Bearer valid-token")], body := none }]
    ∧ get_price_path "sku1" = "/merchant-skus/sku1/inventory"
    ∧ get_price_path "sku1" ≠ "/merchant-skus/sku1/price"
    ∧ update_price_path "sku1" = "/merchant-skus/sku1/price" := by
  refine ⟨rfl, rfl, ?_, rfl⟩
  decide

/-- C7: whatever credential the cache yields, the domain request is built
on `ENDPOINT ++ path` with the authorization header holding
`Bearer <id_token>`, the caller's builder is applied to that authorized
request and the result is what is sent; a token that cannot be encoded
into a header value makes the call return `Error.InvalidBearerToken`
without sending anything further. -/
theorem request_construction (now : Int) (st : Client)
    (send : HttpRequest → HttpOutcome) (pt : String → Except String Token)
    (α : Type) (parse : String → Except String α) (method path : String)
    (f : HttpRequest → HttpRequest) (t : Token) (st' : Client)
    (reqs0 : List HttpRequest)
    (hwt : with_token now st send pt (fun tk => Except.ok tk) = (Except.ok t, st', reqs0)) :
    (∀ v, bearerHeaderValue t.id_token = some v →
      v = "Bearer " ++ t.id_token
      ∧ (request now st send pt parse method path f).2.2
          = reqs0 ++ [f { method := method, url := ENDPOINT ++ path,
                          headers := [("authorization", v)], body := none }])
    ∧ (bearerHeaderValue t.id_token = none →
        request now st send pt parse method path f
          = (.error .InvalidBearerToken, st', reqs0)) := by
  have hg := with_token_observer hwt (authedRequest method path)
  constructor
  · intro v hv
    have hbv : v = "Bearer " ++ t.id_token := by
      unfold bearerHeaderValue at hv
      split at hv
      · exact (Option.some.inj hv).symm
      · cases hv
    refine ⟨hbv, ?_⟩
    have hreq0 : with_token now st send pt (authedRequest method path)
        = (Except.ok { method := method, url := ENDPOINT ++ path,
                       headers := [("authorization", v)], body := none }, st', reqs0) := by
      rw [hg]
      unfold authedRequest
      rw [hv]
    rw [request_ok_sent parse f hreq0]
    split
    · rfl
    · split
      · rfl
      · split <;> rfl
  · intro hv
    have hreq0 : with_token now st send pt (authedRequest method path)
        = (Except.error Error.InvalidBearerToken, st', reqs0) := by
      rw [hg]
      unfold authedRequest
      rw [hv]
    rw [request_with_token_err parse f hreq0]

/-- C7 witness: with the valid cached credential, a PUT on the price path
sends exactly one request, to `ENDPOINT ++ "/merchant-skus/sku1/price"`,
carrying the header value "Bearer valid-token". -/
theorem request_construction_witness :
    ("Bearer valid-token" : String) = "Bearer " ++ validToken.id_token
    ∧ (request 0 validClient send404 parseFresh (fun _ => Except.ok (0 : Nat))
         "PUT" "/merchant-skus/sku1/price" (fun r => r)).2.2
        = [] ++ [{ method := "PUT", url := ENDPOINT ++ "/merchant-skus/sku1/price",
                   headers := [("authorization", "Bearer valid-token")], body := none }] :=
  (request_construction 0 validClient send404 parseFresh Nat
      (fun _ => Except.ok (0 : Nat)) "PUT" "/merchant-skus/sku1/price" (fun r => r)
      validToken validClient [] rfl).1 "Bearer valid-token" rfl

/-- C8: `request_no_content` behaves exactly as `request` would with a
body decoder that never looks at the body and always succeeds with unit:
the same authorization step, the same sent request, the same
`Error.Request` with path, status and raw body on a non-success status,
and unit on success with no parsing. -/
theorem request_no_content_refines_request (now : Int) (st : Client)
    (send : HttpRequest → HttpOutcome) (pt : String → Except String Token)
    (method path : String) (f : HttpRequest → HttpRequest) :
    request_no_content now st send pt method path f
      = request now st send pt (fun _ => Except.ok ()) method path f :=
  request_no_content_as_request now st send pt method path f

/-- C9: the construction-time configuration (principal identifier, secret,
merchant identifier) is never modified: `with_token`, `request` and
`request_no_content` preserve the options component of the client state,
whose only other component is the credential slot. -/
theorem client_configuration_immutable (now : Int) (st : Client)
    (send : HttpRequest → HttpOutcome) (pt : String → Except String Token)
    (α : Type) (g : Token → Except Error α) (parse : String → Except String α)
    (method path : String) (f : HttpRequest → HttpRequest) :
    ((with_token now st send pt g).2.1).options = st.options
    ∧ ((request now st send pt parse method path f).2.1).options = st.options
    ∧ ((request_no_content now st send pt method path f).2.1).options = st.options := by
  refine ⟨with_token_options now st send pt g,
    request_options now st send pt parse method path f, ?_⟩
  rw [request_no_content_as_request now st send pt method path f]
  exact request_options now st send pt (fun _ => Except.ok ()) method path f

end Jet
